import Mathlib

/-!
Verification of the CPAP EOB cost-allocation script.

A shallow embedding of `src/FSlogic_WM_fixed.py` (a Streamlit single-page
calculator).  Currency amounts are modelled as exact rationals (`ℚ`);
Python's `round(x, 2)` is modelled by round-half-to-even on cents, and
`f"{v:.2f}"` formatting by `fmtMoney`.  The script's top-to-bottom execution
order (which matters because the totals are computed *before* the data-editor
override of `df_setup`) is captured by `runScript`.
-/

/-- Round-half-to-even of a rational to the nearest integer, modelling the
tie-breaking behaviour of Python's built-in `round`. -/
def roundHalfEven (q : ℚ) : ℤ :=
  if q - ⌊q⌋ < 1/2 then ⌊q⌋
  else if 1/2 < q - ⌊q⌋ then ⌊q⌋ + 1
  else if ⌊q⌋ % 2 = 0 then ⌊q⌋ else ⌊q⌋ + 1

/-- Python `round(q, 2)`: round to two decimal places. -/
def round2 (q : ℚ) : ℚ := (roundHalfEven (q * 100) : ℚ) / 100

/-- One entry of the CPAP fee schedule (source lines 51-59).  One-time items
have no `months` key in the Python dicts; they carry `months := 0` here. -/
structure FeeItem where
  code : String
  charge : ℚ
  isMonthly : Bool
  months : ℕ
  desc : String
deriving DecidableEq

/-- The fixed CPAP fee schedule (source lines 51-59). -/
def fee_schedule : List FeeItem :=
  [ ⟨"E0601", 7318/100, true, 10, "Device Rental"⟩,
    ⟨"E0562", 2238/100, true, 10, "Humidifier Rental"⟩,
    ⟨"A7037", 2552/100, false, 0, "Mask Setup"⟩,
    ⟨"A7038", 369/100, false, 0, "Mask Cushion"⟩,
    ⟨"A7034", 14203/100, false, 0, "Humidifier"⟩,
    ⟨"A7035", 2722/100, false, 0, "Tubing"⟩,
    ⟨"A7033", 5303/100, false, 0, "Filter Kit"⟩ ]

/-- A row of the setup-charges table `df_setup` (source lines 66-80). -/
structure SetupLine where
  code : String
  description : String
  price : ℚ
deriving DecidableEq

/-- Build the setup-charges table (source lines 66-80): one-time items keep
their description, monthly items are labelled as first-month rentals; every
price is `round(charge, 2)`. -/
def buildSetupLines (fs : List FeeItem) : List SetupLine :=
  fs.map fun item =>
    if item.isMonthly = false then
      ⟨item.code, item.desc, round2 item.charge⟩
    else
      ⟨item.code, item.desc ++ " (1st Month)", round2 item.charge⟩

/-- A calendar date as used by the sidebar date inputs. -/
structure SimpleDate where
  year : ℕ
  month : ℕ
  day : ℕ
deriving DecidableEq

/-- The sidebar insurance parameters (source lines 31-48). -/
structure Params where
  eff_date : SimpleDate
  deductible_total : ℚ
  deductible_met : ℚ
  oop_max : ℚ
  oop_met : ℚ
  coinsurance_rate : ℚ
  reset_date : SimpleDate
deriving DecidableEq

/-- The sidebar defaults (source lines 31-48): effective 2024-01-01,
deductible 350 fully met, OOP max 4000 with 912.51 met, 20% coinsurance,
reset date 2026-01-01. -/
def defaultParams : Params :=
  { eff_date := ⟨2024, 1, 1⟩
    deductible_total := 350
    deductible_met := 350
    oop_max := 4000
    oop_met := 91251/100
    coinsurance_rate := 20/100
    reset_date := ⟨2026, 1, 1⟩ }

/-- Python `calendar.month_name[i]` for `i = 1..12`; the empty string elsewhere,
matching Python's `calendar.month_name[0] = ""`. -/
def month_name : ℕ → String
  | 1 => "January"
  | 2 => "February"
  | 3 => "March"
  | 4 => "April"
  | 5 => "May"
  | 6 => "June"
  | 7 => "July"
  | 8 => "August"
  | 9 => "September"
  | 10 => "October"
  | 11 => "November"
  | 12 => "December"
  | _ => ""

/-- Source `max_months` (line 95): the maximum rental duration over the
monthly fee-schedule items. -/
def max_months (fs : List FeeItem) : ℕ :=
  ((fs.filter (·.isMonthly)).map (·.months)).foldl max 0

/-- Source `monthly_total` (line 139), also the per-month `allowed` amount
recomputed inside the loop (source line 98): the sum of the charges of all
monthly items. -/
def monthly_total (fs : List FeeItem) : ℚ :=
  ((fs.filter (·.isMonthly)).map (·.charge)).sum

/-- Source `supply_total` (line 138): the sum of the one-time charges. -/
def supply_total (fs : List FeeItem) : ℚ :=
  ((fs.filter (fun i => !i.isMonthly)).map (·.charge)).sum

/-- The running balances of the schedule loop: `year_ded_remaining`
(source line 93) and `oop_remaining` (source line 63). -/
structure LoopState where
  year_ded_remaining : ℚ
  oop_remaining : ℚ
deriving DecidableEq

/-- The balances before the first iteration (source lines 62-63 and 93):
`max(total - met, 0)` for both the deductible and the out-of-pocket cap. -/
def initState (p : Params) : LoopState :=
  ⟨max (p.deductible_total - p.deductible_met) 0,
   max (p.oop_max - p.oop_met) 0⟩

/-- The calendar month of loop iteration `m` (source line 100):
`(eff_date.month + m - 2) % 12 + 1`. -/
def monthIndexOf (p : Params) (m : ℕ) : ℕ :=
  (p.eff_date.month + m - 2) % 12 + 1

/-- The annual deductible reset (source lines 103-104): when the iterated
calendar month equals `reset_date.month`, the running deductible is replaced
by the full `deductible_total`. -/
def applyReset (p : Params) (m : ℕ) (yd : ℚ) : ℚ :=
  if monthIndexOf p m = p.reset_date.month then p.deductible_total else yd

/-- The deductible phase (source lines 107-114).  Returns
`(pat, year_ded_remaining, rem)`. -/
def dedPhase (allowed yd : ℚ) : ℚ × ℚ × ℚ :=
  if 0 < yd then
    (min allowed yd, yd - min allowed yd, allowed - min allowed yd)
  else
    (0, yd, allowed)

/-- The coinsurance / out-of-pocket phase on the remainder
(source lines 117-127).  Returns `(pat, ins, oop_remaining)`. -/
def coinsPhase (rate oop pat0 rem : ℚ) : ℚ × ℚ × ℚ :=
  if 0 < rem then
    if 0 < oop then
      (pat0 + min (rem * rate) oop,
       rem - min (rem * rate) oop,
       oop - min (rem * rate) oop)
    else
      (pat0, rem, oop)
  else
    (pat0, 0, oop)

/-- One schedule row before the final 2-decimal rounding
(source lines 129-133 round `pat` and `ins` when appending). -/
structure RawRow where
  month_index : ℕ
  pat : ℚ
  ins : ℚ
deriving DecidableEq

/-- One iteration of the schedule loop (source lines 97-133): reset check,
deductible phase, coinsurance/OOP phase; returns the updated balances and
the unrounded row. -/
def scheduleStep (p : Params) (allowed : ℚ) (st : LoopState) (m : ℕ) :
    LoopState × RawRow :=
  let yd0 := applyReset p m st.year_ded_remaining
  let d := dedPhase allowed yd0
  let c := coinsPhase p.coinsurance_rate st.oop_remaining d.1 d.2.2
  (⟨d.2.1, c.2.2⟩, ⟨monthIndexOf p m, c.1, c.2.1⟩)

/-- Run the schedule loop over a list of month indices, threading the
balances. -/
def scheduleAux (p : Params) (allowed : ℚ) : LoopState → List ℕ → List RawRow
  | _, [] => []
  | st, m :: ms =>
    (scheduleStep p allowed st m).2 ::
      scheduleAux p allowed (scheduleStep p allowed st m).1 ms

/-- The balances observed during the loop: the initial state followed by the
state after each iteration. -/
def stateTrace (p : Params) (allowed : ℚ) : LoopState → List ℕ → List LoopState
  | st, [] => [st]
  | st, m :: ms => st :: stateTrace p allowed (scheduleStep p allowed st m).1 ms

/-- The month indices iterated by the loop (source line 97):
`range(2, max_months + 1)`, i.e. `2, 3, ..., max_months`. -/
def monthIndices (fs : List FeeItem) : List ℕ :=
  (List.range (max_months fs - 1)).map (· + 2)

/-- The monthly schedule before rounding. -/
def buildScheduleRaw (p : Params) (fs : List FeeItem) : List RawRow :=
  scheduleAux p (monthly_total fs) (initState p) (monthIndices fs)

/-- A row of `df_schedule` (source lines 129-133). -/
structure MonthRow where
  month : String
  patient_pays : ℚ
  insurance_pays : ℚ
deriving DecidableEq

/-- Source `schedule` / `df_schedule` (lines 94-135): the monthly rental
schedule with the month name and the two amounts rounded to cents. -/
def buildSchedule (p : Params) (fs : List FeeItem) : List MonthRow :=
  (buildScheduleRaw p fs).map fun r =>
    ⟨month_name r.month_index, round2 r.pat, round2 r.ins⟩

/-- Source `estimated_patient` (line 140): setup prices plus the rounded
monthly patient amounts.  Note this is computed from the *original*
`df_setup`, before the data-editor override at line 170. -/
def estimated_patient (p : Params) (fs : List FeeItem) : ℚ :=
  ((buildSetupLines fs).map (·.price)).sum +
    ((buildSchedule p fs).map (·.patient_pays)).sum

/-- Source `estimated_insurance` (line 141). -/
def estimated_insurance (p : Params) (fs : List FeeItem) : ℚ :=
  ((buildSchedule p fs).map (·.insurance_pays)).sum

/-- Source `total_all_upfront` (line 142):
`supply_total + monthly_total * max_months`. -/
def total_all_upfront (fs : List FeeItem) : ℚ :=
  supply_total fs + monthly_total fs * (max_months fs : ℚ)

/-- Two-digit zero-padded cents, as produced by Python's `%.2f` formatting. -/
def pad2 (n : ℕ) : String :=
  if n < 10 then "0" ++ toString n else toString n

/-- Python `f"${v:.2f}"` money formatting (used in the PDF tables,
source lines 223, 234-235, 243-244, 249, 255). -/
def fmtMoney (q : ℚ) : String :=
  let cents := roundHalfEven (q * 100)
  let sign := if cents < 0 then "-" else ""
  "$" ++ sign ++ toString (cents.natAbs / 100) ++ "." ++ pad2 (cents.natAbs % 100)

/-- The reportlab flowables appended to `elements`
(source lines 197-269), with the presentational attributes that carry no
data (styles, column widths) dropped. -/
inductive PdfElem where
  | image (data : List ℕ)
  | spacer (w h : ℕ)
  | para (text : String)
  | table (data : List (List String))
deriving DecidableEq

/-- Outcome of the PDF-generation branch (source lines 186-281): the element
list handed to `doc.build`, the `st.error` messages surfaced on the way, and
whether the build step was reached. -/
structure PdfGenResult where
  elements : List PdfElem
  warnings : List String
  built : Bool
deriving DecidableEq

/-- The PDF-generation branch (source lines 186-272).  Reading the logo file
is modelled by the `logoRead` argument: `none` means `open` raised and the
`except` branch emitted the `st.error` warning (lines 202-207); the image is
appended only when the bytes are present and non-empty (`if logo_data:`,
line 209).  Either way the function proceeds to build all five tables and
the footer, and reaches `doc.build` (line 272). -/
def generatePdf (logoRead : Option (List ℕ)) (setup : List SetupLine)
    (sched : List MonthRow) (est_pat est_ins total_up : ℚ)
    (todayStr : String) : PdfGenResult :=
  let warnings :=
    match logoRead with
    | none => ["Error: FSlogo.png not found for PDF header"]
    | some _ => []
  let logoElems :=
    match logoRead with
    | none => []
    | some bs => if bs.isEmpty then [] else [PdfElem.image bs]
  let data1 := ["CPT Code", "Description", "Price ($)"] ::
    setup.map (fun r => [r.code, r.description, fmtMoney r.price])
  let data2 := ["Month", "Patient Pays", "Insurance Pays"] ::
    sched.map (fun r => [r.month, fmtMoney r.patient_pays, fmtMoney r.insurance_pays])
  let data3 := [["Category", "Total"],
                ["Patient Paid", fmtMoney est_pat],
                ["Insurance Paid", fmtMoney est_ins]]
  let data4 := [["If patient prefers full upfront payment:", fmtMoney est_pat]]
  let data5 := [["Description", "Total"],
                ["Combined Cost", fmtMoney total_up]]
  { elements := logoElems ++
      [ PdfElem.spacer 1 6,
        PdfElem.para ("Patient Name: __________________   DOB: __________   Date: " ++ todayStr),
        PdfElem.spacer 1 12,
        PdfElem.para "1) Total Due Now (Supplies + First Month)",
        PdfElem.table data1,
        PdfElem.spacer 1 10,
        PdfElem.para "2) Monthly Rental Schedule",
        PdfElem.table data2,
        PdfElem.spacer 1 10,
        PdfElem.para "3) Estimated Totals",
        PdfElem.table data3,
        PdfElem.spacer 1 10,
        PdfElem.para "4) Optional Full Prepay Amount",
        PdfElem.table data4,
        PdfElem.spacer 1 10,
        PdfElem.para "5) Overall Cost Summary",
        PdfElem.table data5,
        PdfElem.spacer 1 12,
        PdfElem.para "Please select one:   [ ] Monthly Rental Option     [ ] Lump Sum Payment",
        PdfElem.spacer 1 6,
        PdfElem.para "Patient Signature: __________________   Date: __________________" ]
    warnings := warnings
    built := true }

/-- The tabular data carried by an element list, in order. -/
def tablesOf (es : List PdfElem) : List (List (List String)) :=
  es.filterMap fun e =>
    match e with
    | PdfElem.table d => some d
    | _ => none

/-- What one top-to-bottom run of the script computes and displays. -/
structure ScriptOutput where
  setup_total_displayed : ℚ
  estimated_patient_displayed : ℚ
  estimated_insurance_displayed : ℚ
  total_all_upfront_displayed : ℚ
  pdf : PdfGenResult
deriving DecidableEq

/-- One top-to-bottom Streamlit run of the script, in source order: the setup
table is built (lines 66-80), the schedule and the four totals are computed
(lines 94-142), and only then is `df_setup` overwritten with the data-editor
result (lines 159-170).  The displayed setup total (line 173) and the PDF
setup table (line 222) therefore use the edited rows, while
`estimated_patient` and `estimated_insurance` (lines 140-141, displayed at
lines 180-181 and put into PDF tables 3 and 4) were already computed from
the original rows.  `edit` is the data-editor transformation. -/
def runScript (p : Params) (edit : List SetupLine → List SetupLine)
    (logoRead : Option (List ℕ)) (todayStr : String) : ScriptOutput :=
  let df_setup := buildSetupLines fee_schedule
  let df_schedule := buildSchedule p fee_schedule
  let est_pat := (df_setup.map (·.price)).sum + (df_schedule.map (·.patient_pays)).sum
  let est_ins := (df_schedule.map (·.insurance_pays)).sum
  let upfront := supply_total fee_schedule +
    monthly_total fee_schedule * (max_months fee_schedule : ℚ)
  let df_setup2 := edit df_setup
  { setup_total_displayed := (df_setup2.map (·.price)).sum
    estimated_patient_displayed := est_pat
    estimated_insurance_displayed := est_ins
    total_all_upfront_displayed := upfront
    pdf := generatePdf logoRead df_setup2 df_schedule est_pat est_ins upfront todayStr }

/-- A concrete data-editor interaction: the user zeroes out every price in
the setup table. -/
def edit0 : List SetupLine → List SetupLine :=
  fun ls => ls.map fun l => { l with price := 0 }

/-- Sidebar defaults with a different year and day (but the same month) on
the deductible reset date. -/
def altParams : Params :=
  { defaultParams with reset_date := ⟨2031, 1, 20⟩ }

/-- The successive values of `oop_remaining` over the whole schedule run,
starting with its initial value. -/
def oop_trace (p : Params) : List ℚ :=
  (stateTrace p (monthly_total fee_schedule) (initState p)
    (monthIndices fee_schedule)).map (·.oop_remaining)

theorem scheduleAux_nil (p : Params) (a : ℚ) (st : LoopState) :
    scheduleAux p a st [] = [] := rfl

theorem scheduleAux_cons (p : Params) (a : ℚ) (st : LoopState) (m : ℕ) (ms : List ℕ) :
    scheduleAux p a st (m :: ms) =
      (scheduleStep p a st m).2 :: scheduleAux p a (scheduleStep p a st m).1 ms := rfl

theorem stateTrace_nil (p : Params) (a : ℚ) (st : LoopState) :
    stateTrace p a st [] = [st] := rfl

theorem stateTrace_cons (p : Params) (a : ℚ) (st : LoopState) (m : ℕ) (ms : List ℕ) :
    stateTrace p a st (m :: ms) =
      st :: stateTrace p a (scheduleStep p a st m).1 ms := rfl

theorem stateTrace_head (p : Params) (a : ℚ) (st : LoopState) (ms : List ℕ) :
    (stateTrace p a st ms).head? = some st := by
  cases ms <;> rfl

theorem scheduleAux_length (p : Params) (a : ℚ) (ms : List ℕ) :
    ∀ st : LoopState, (scheduleAux p a st ms).length = ms.length := by
  induction ms with
  | nil => intro st; rfl
  | cons m ms ih =>
    intro st
    rw [scheduleAux_cons, List.length_cons, List.length_cons, ih]

theorem scheduleAux_map_month (p : Params) (a : ℚ) (ms : List ℕ) :
    ∀ st : LoopState,
      (scheduleAux p a st ms).map (·.month_index) = ms.map (monthIndexOf p) := by
  induction ms with
  | nil => intro st; rfl
  | cons m ms ih =>
    intro st
    rw [scheduleAux_cons, List.map_cons, List.map_cons, ih]
    rfl

theorem dedPhase_add (a y : ℚ) (ha : 0 ≤ a) :
    (dedPhase a y).1 + (dedPhase a y).2.2 = a := by
  unfold dedPhase
  split_ifs <;> simp

theorem dedPhase_rem_nonneg (a y : ℚ) (ha : 0 ≤ a) : 0 ≤ (dedPhase a y).2.2 := by
  unfold dedPhase
  split_ifs with h
  · simpa [sub_nonneg] using min_le_left a y
  · exact ha

theorem dedPhase_bounds (a y : ℚ) (ha : 0 ≤ a) (hy : 0 ≤ y) :
    0 ≤ (dedPhase a y).1 ∧ 0 ≤ (dedPhase a y).2.1 ∧ 0 ≤ (dedPhase a y).2.2 := by
  unfold dedPhase
  split_ifs with h
  · refine ⟨le_min ha h.le, ?_, ?_⟩
    · simpa [sub_nonneg] using min_le_right a y
    · simpa [sub_nonneg] using min_le_left a y
  · exact ⟨le_refl 0, hy, ha⟩

theorem coinsPhase_add (rate o p0 rem : ℚ) (hrem : 0 ≤ rem) :
    (coinsPhase rate o p0 rem).1 + (coinsPhase rate o p0 rem).2.1 = p0 + rem := by
  unfold coinsPhase
  split_ifs with h1 h2
  · ring
  · rfl
  · have h : rem = 0 := le_antisymm (not_lt.mp h1) hrem
    simp [h]

theorem coinsPhase_oop_le (rate o p0 rem : ℚ) (hr : 0 ≤ rate) :
    (coinsPhase rate o p0 rem).2.2 ≤ o := by
  unfold coinsPhase
  split_ifs with h1 h2
  · have hcp : 0 ≤ min (rem * rate) o := le_min (mul_nonneg h1.le hr) h2.le
    simp only []
    linarith
  · exact le_refl o
  · exact le_refl o

theorem coinsPhase_bounds (rate o p0 rem : ℚ) (hr0 : 0 ≤ rate) (hr1 : rate ≤ 1)
    (ho : 0 ≤ o) (hp : 0 ≤ p0) (hrem : 0 ≤ rem) :
    0 ≤ (coinsPhase rate o p0 rem).1 ∧ (coinsPhase rate o p0 rem).1 ≤ p0 + rem ∧
      0 ≤ (coinsPhase rate o p0 rem).2.1 ∧ (coinsPhase rate o p0 rem).2.1 ≤ rem ∧
      0 ≤ (coinsPhase rate o p0 rem).2.2 := by
  unfold coinsPhase
  split_ifs with h1 h2
  · have hcp0 : 0 ≤ min (rem * rate) o := le_min (mul_nonneg hrem hr0) h2.le
    have hcpr : min (rem * rate) o ≤ rem :=
      le_trans (min_le_left _ _) (mul_le_of_le_one_right hrem hr1)
    have hcpo : min (rem * rate) o ≤ o := min_le_right _ _
    dsimp only
    refine ⟨by linarith, by linarith, by linarith, by linarith, by linarith⟩
  · exact ⟨hp, by linarith, hrem, le_refl rem, ho⟩
  · exact ⟨hp, by linarith, le_refl 0, hrem, ho⟩

theorem applyReset_nonneg (p : Params) (m : ℕ) (yd : ℚ)
    (hdt : 0 ≤ p.deductible_total) (hy : 0 ≤ yd) : 0 ≤ applyReset p m yd := by
  unfold applyReset
  split_ifs
  · exact hdt
  · exact hy

theorem scheduleStep_add (p : Params) (a : ℚ) (st : LoopState) (m : ℕ) (ha : 0 ≤ a) :
    (scheduleStep p a st m).2.pat + (scheduleStep p a st m).2.ins = a := by
  simp only [scheduleStep]
  rw [coinsPhase_add _ _ _ _ (dedPhase_rem_nonneg _ _ ha), dedPhase_add _ _ ha]

theorem scheduleStep_oop_le (p : Params) (a : ℚ) (st : LoopState) (m : ℕ)
    (hr : 0 ≤ p.coinsurance_rate) :
    (scheduleStep p a st m).1.oop_remaining ≤ st.oop_remaining := by
  simp only [scheduleStep]
  exact coinsPhase_oop_le _ _ _ _ hr

theorem scheduleStep_bounds (p : Params) (a : ℚ) (st : LoopState) (m : ℕ)
    (hdt : 0 ≤ p.deductible_total) (hr0 : 0 ≤ p.coinsurance_rate)
    (hr1 : p.coinsurance_rate ≤ 1) (ha : 0 ≤ a)
    (hy : 0 ≤ st.year_ded_remaining) (ho : 0 ≤ st.oop_remaining) :
    0 ≤ (scheduleStep p a st m).1.year_ded_remaining ∧
      0 ≤ (scheduleStep p a st m).1.oop_remaining ∧
      0 ≤ (scheduleStep p a st m).2.pat ∧ (scheduleStep p a st m).2.pat ≤ a ∧
      0 ≤ (scheduleStep p a st m).2.ins ∧ (scheduleStep p a st m).2.ins ≤ a := by
  have hy0 : 0 ≤ applyReset p m st.year_ded_remaining := applyReset_nonneg p m _ hdt hy
  obtain ⟨hd1, hd2, hd3⟩ := dedPhase_bounds a _ ha hy0
  have hsum := dedPhase_add a (applyReset p m st.year_ded_remaining) ha
  obtain ⟨hc1, hc2, hc3, hc4, hc5⟩ :=
    coinsPhase_bounds p.coinsurance_rate st.oop_remaining _ _ hr0 hr1 ho hd1 hd3
  simp only [scheduleStep]
  exact ⟨hd2, hc5, hc1, by linarith, hc3, by linarith⟩

theorem scheduleAux_add (p : Params) (a : ℚ) (ha : 0 ≤ a) (ms : List ℕ) :
    ∀ (st : LoopState) (r : RawRow), r ∈ scheduleAux p a st ms → r.pat + r.ins = a := by
  induction ms with
  | nil => intro st r hr; simp [scheduleAux_nil] at hr
  | cons m ms ih =>
    intro st r hr
    rw [scheduleAux_cons] at hr
    rcases List.mem_cons.mp hr with h | h
    · subst h; exact scheduleStep_add p a st m ha
    · exact ih _ r h

theorem scheduleAux_bounds (p : Params) (a : ℚ)
    (hdt : 0 ≤ p.deductible_total) (hr0 : 0 ≤ p.coinsurance_rate)
    (hr1 : p.coinsurance_rate ≤ 1) (ha : 0 ≤ a) (ms : List ℕ) :
    ∀ st : LoopState, 0 ≤ st.year_ded_remaining → 0 ≤ st.oop_remaining →
      (∀ r ∈ scheduleAux p a st ms,
        0 ≤ r.pat ∧ r.pat ≤ a ∧ 0 ≤ r.ins ∧ r.ins ≤ a) ∧
      (∀ s ∈ stateTrace p a st ms,
        0 ≤ s.year_ded_remaining ∧ 0 ≤ s.oop_remaining) := by
  induction ms with
  | nil =>
    intro st hy ho
    refine ⟨?_, ?_⟩
    · intro r hr; simp [scheduleAux_nil] at hr
    · intro s hs
      rw [stateTrace_nil, List.mem_singleton] at hs
      subst hs; exact ⟨hy, ho⟩
  | cons m ms ih =>
    intro st hy ho
    obtain ⟨h1, h2, h3, h4, h5, h6⟩ := scheduleStep_bounds p a st m hdt hr0 hr1 ha hy ho
    obtain ⟨ihr, ihs⟩ := ih (scheduleStep p a st m).1 h1 h2
    refine ⟨?_, ?_⟩
    · intro r hr
      rw [scheduleAux_cons] at hr
      rcases List.mem_cons.mp hr with h | h
      · subst h; exact ⟨h3, h4, h5, h6⟩
      · exact ihr r h
    · intro s hs
      rw [stateTrace_cons] at hs
      rcases List.mem_cons.mp hs with h | h
      · subst h; exact ⟨hy, ho⟩
      · exact ihs s h

theorem stateTrace_chain (p : Params) (a : ℚ) (hr : 0 ≤ p.coinsurance_rate) (ms : List ℕ) :
    ∀ st : LoopState,
      List.Chain' (fun s t : LoopState => t.oop_remaining ≤ s.oop_remaining)
        (stateTrace p a st ms) := by
  induction ms with
  | nil => intro st; simp [stateTrace_nil]
  | cons m ms ih =>
    intro st
    rw [stateTrace_cons]
    refine List.chain'_cons'.mpr ⟨?_, ih _⟩
    intro t ht
    rw [stateTrace_head] at ht
    cases ht
    exact scheduleStep_oop_le p a st m hr

theorem roundHalfEven_close (q : ℚ) : |(roundHalfEven q : ℚ) - q| ≤ 1/2 := by
  have h1 : ((⌊q⌋ : ℤ) : ℚ) ≤ q := Int.floor_le q
  have h2 : q < (⌊q⌋ : ℚ) + 1 := Int.lt_floor_add_one q
  unfold roundHalfEven
  split_ifs with ha hb hc
  · rw [abs_le]; constructor <;> linarith
  · rw [abs_le]; push_cast; constructor <;> linarith
  · rw [abs_le]; constructor <;> linarith
  · rw [abs_le]; push_cast; constructor <;> linarith

theorem round2_close (q : ℚ) : |round2 q - q| ≤ 1/200 := by
  have h := roundHalfEven_close (q * 100)
  rw [abs_le] at h ⊢
  unfold round2
  constructor <;> [linarith; linarith]

theorem monthly_total_eval : monthly_total fee_schedule = 2389/25 := by
  norm_num [monthly_total, fee_schedule]

theorem initState_default : initState defaultParams = ⟨0, 308749/100⟩ := by
  rw [initState]
  simp only [defaultParams]
  norm_num

theorem monthIndexOf_default (m : ℕ) (h1 : 1 ≤ m) (h12 : m ≤ 12) :
    monthIndexOf defaultParams m = m := by
  simp only [monthIndexOf, defaultParams]
  omega

theorem scheduleStep_default (o : ℚ) (m : ℕ) (h2 : 2 ≤ m) (h12 : m ≤ 12)
    (ho : 2389/125 ≤ o) :
    scheduleStep defaultParams (2389/25) ⟨0, o⟩ m =
      (⟨0, o - 2389/125⟩, ⟨m, 2389/125, 9556/125⟩) := by
  have hmi : monthIndexOf defaultParams m = m := monthIndexOf_default m (by omega) h12
  have hrm : defaultParams.reset_date.month = 1 := rfl
  have hne : m ≠ 1 := by omega
  have ho0 : (0:ℚ) < o := lt_of_lt_of_le (by norm_num) ho
  have hdp : dedPhase (2389/25 : ℚ) 0 = (0, 0, 2389/25) := by norm_num [dedPhase]
  have hmin : min ((2389/25 : ℚ) * (20/100)) o = 2389/125 := by
    rw [show ((2389/25 : ℚ) * (20/100)) = 2389/125 by norm_num]
    exact min_eq_left ho
  have hcp : coinsPhase (20/100 : ℚ) o 0 (2389/25) = (2389/125, 9556/125, o - 2389/125) := by
    unfold coinsPhase
    rw [if_pos (by norm_num : (0:ℚ) < 2389/25), if_pos ho0, hmin]
    norm_num
  simp only [scheduleStep, applyReset, hmi, hrm, if_neg hne]
  rw [show defaultParams.coinsurance_rate = 20/100 from rfl, hdp]
  dsimp only
  rw [hcp]

theorem scheduleAux_default (ms : List ℕ) :
    ∀ o : ℚ, (∀ m ∈ ms, 2 ≤ m ∧ m ≤ 12) → (ms.length : ℚ) * (2389/125) ≤ o →
      scheduleAux defaultParams (2389/25) ⟨0, o⟩ ms =
        ms.map (fun m => ⟨m, 2389/125, 9556/125⟩) := by
  induction ms with
  | nil => intro o _ _; rfl
  | cons m ms ih =>
    intro o hms ho
    have hm := hms m (List.mem_cons_self m ms)
    have hlen0 : (0:ℚ) ≤ (ms.length : ℚ) * (2389/125) := by positivity
    have hlen : ((m :: ms).length : ℚ) = (ms.length : ℚ) + 1 := by
      rw [List.length_cons]; push_cast; ring
    have ho1 : (2389/125 : ℚ) ≤ o := by
      rw [hlen] at ho; nlinarith
    rw [scheduleAux_cons, scheduleStep_default o m hm.1 hm.2 ho1]
    dsimp only
    rw [ih (o - 2389/125) (fun x hx => hms x (List.mem_cons_of_mem m hx)) (by rw [hlen] at ho; linarith)]
    rfl

theorem buildScheduleRaw_default :
    buildScheduleRaw defaultParams fee_schedule =
      [⟨2, 2389/125, 9556/125⟩, ⟨3, 2389/125, 9556/125⟩, ⟨4, 2389/125, 9556/125⟩,
       ⟨5, 2389/125, 9556/125⟩, ⟨6, 2389/125, 9556/125⟩, ⟨7, 2389/125, 9556/125⟩,
       ⟨8, 2389/125, 9556/125⟩, ⟨9, 2389/125, 9556/125⟩, ⟨10, 2389/125, 9556/125⟩] := by
  rw [buildScheduleRaw, monthly_total_eval, initState_default,
    show monthIndices fee_schedule = [2,3,4,5,6,7,8,9,10] from rfl,
    scheduleAux_default _ _ (by decide) (by norm_num)]
  rfl

theorem round2_pat_default : round2 (2389/125 : ℚ) = 1911/100 := by
  norm_num [round2, roundHalfEven, Int.fract]

theorem round2_ins_default : round2 (9556/125 : ℚ) = 7645/100 := by
  norm_num [round2, roundHalfEven, Int.fract]

theorem buildSchedule_default :
    buildSchedule defaultParams fee_schedule =
      [⟨"February", 1911/100, 7645/100⟩, ⟨"March", 1911/100, 7645/100⟩,
       ⟨"April", 1911/100, 7645/100⟩, ⟨"May", 1911/100, 7645/100⟩,
       ⟨"June", 1911/100, 7645/100⟩, ⟨"July", 1911/100, 7645/100⟩,
       ⟨"August", 1911/100, 7645/100⟩, ⟨"September", 1911/100, 7645/100⟩,
       ⟨"October", 1911/100, 7645/100⟩] := by
  rw [buildSchedule, buildScheduleRaw_default]
  simp only [List.map_cons, List.map_nil, round2_pat_default, round2_ins_default]
  rfl

theorem scheduleStep_eqParams (p₁ p₂ : Params) (a : ℚ) (st : LoopState) (m : ℕ)
    (he : p₁.eff_date.month = p₂.eff_date.month)
    (hdt : p₁.deductible_total = p₂.deductible_total)
    (hcr : p₁.coinsurance_rate = p₂.coinsurance_rate)
    (hrm : p₁.reset_date.month = p₂.reset_date.month) :
    scheduleStep p₁ a st m = scheduleStep p₂ a st m := by
  simp only [scheduleStep, applyReset, monthIndexOf, he, hdt, hcr, hrm]

theorem scheduleAux_eqParams (p₁ p₂ : Params) (a : ℚ)
    (he : p₁.eff_date.month = p₂.eff_date.month)
    (hdt : p₁.deductible_total = p₂.deductible_total)
    (hcr : p₁.coinsurance_rate = p₂.coinsurance_rate)
    (hrm : p₁.reset_date.month = p₂.reset_date.month) (ms : List ℕ) :
    ∀ st : LoopState, scheduleAux p₁ a st ms = scheduleAux p₂ a st ms := by
  induction ms with
  | nil => intro st; rfl
  | cons m ms ih =>
    intro st
    rw [scheduleAux_cons, scheduleAux_cons,
      scheduleStep_eqParams p₁ p₂ a st m he hdt hcr hrm, ih]

theorem initState_eqParams (p₁ p₂ : Params)
    (hdt : p₁.deductible_total = p₂.deductible_total)
    (hdm : p₁.deductible_met = p₂.deductible_met)
    (hom : p₁.oop_max = p₂.oop_max)
    (home : p₁.oop_met = p₂.oop_met) :
    initState p₁ = initState p₂ := by
  simp only [initState, hdt, hdm, hom, home]

theorem buildSchedule_eqParams (p₁ p₂ : Params) (fs : List FeeItem)
    (he : p₁.eff_date.month = p₂.eff_date.month)
    (hdt : p₁.deductible_total = p₂.deductible_total)
    (hdm : p₁.deductible_met = p₂.deductible_met)
    (hom : p₁.oop_max = p₂.oop_max)
    (home : p₁.oop_met = p₂.oop_met)
    (hcr : p₁.coinsurance_rate = p₂.coinsurance_rate)
    (hrm : p₁.reset_date.month = p₂.reset_date.month) :
    buildSchedule p₁ fs = buildSchedule p₂ fs := by
  rw [buildSchedule, buildSchedule, buildScheduleRaw, buildScheduleRaw,
    initState_eqParams p₁ p₂ hdt hdm hom home,
    scheduleAux_eqParams p₁ p₂ (monthly_total fs) he hdt hcr hrm]

theorem countResets_mod12 :
    ∀ a ∈ Finset.range 12, ∀ b ∈ Finset.range 12,
      ((Finset.range 12).filter fun j => (a + j) % 12 = b).card = 1 := by
  decide

theorem resetWindow_card (p : Params) (m₀ : ℕ) (he : 1 ≤ p.eff_date.month)
    (hm : 2 ≤ m₀) (h1 : 1 ≤ p.reset_date.month) (h12 : p.reset_date.month ≤ 12) :
    ((Finset.range 12).filter
      fun j => monthIndexOf p (m₀ + j) = p.reset_date.month).card = 1 := by
  have key := countResets_mod12 ((p.eff_date.month + m₀ - 2) % 12)
    (Finset.mem_range.mpr (Nat.mod_lt _ (by norm_num)))
    (p.reset_date.month - 1) (Finset.mem_range.mpr (by omega))
  have hiff : ∀ j ∈ Finset.range 12,
      (monthIndexOf p (m₀ + j) = p.reset_date.month) ↔
        (((p.eff_date.month + m₀ - 2) % 12 + j) % 12 = p.reset_date.month - 1) := by
    intro j hj
    simp only [monthIndexOf]
    constructor <;> intro h <;> omega
  rw [Finset.filter_congr hiff]
  exact key

theorem buildSchedule_map_month (p : Params) (fs : List FeeItem) :
    (buildSchedule p fs).map (·.month) =
      (monthIndices fs).map (fun m => month_name (monthIndexOf p m)) := by
  rw [buildSchedule, buildScheduleRaw, List.map_map,
    show ((fun r : MonthRow => r.month) ∘
        fun r : RawRow => (⟨month_name r.month_index, round2 r.pat, round2 r.ins⟩ : MonthRow)) =
      (fun r : RawRow => month_name r.month_index) from rfl,
    show (fun r : RawRow => month_name r.month_index) =
      (month_name ∘ fun r : RawRow => r.month_index) from rfl,
    ← List.map_map, scheduleAux_map_month, List.map_map]
  rfl

theorem setup_sum_eval :
    ((buildSetupLines fee_schedule).map (·.price)).sum = 34705/100 := by
  norm_num [buildSetupLines, fee_schedule, round2, roundHalfEven]

theorem patient_sum_default :
    ((buildSchedule defaultParams fee_schedule).map (·.patient_pays)).sum = 17199/100 := by
  rw [buildSchedule_default]
  norm_num

theorem insurance_sum_default :
    ((buildSchedule defaultParams fee_schedule).map (·.insurance_pays)).sum = 68805/100 := by
  rw [buildSchedule_default]
  norm_num

theorem edit0_sum :
    ((edit0 (buildSetupLines fee_schedule)).map (·.price)).sum = 0 := by
  norm_num [edit0, buildSetupLines, fee_schedule]

theorem fmtMoney_patient_default : fmtMoney (51904/100 : ℚ) = "$519.04" := by
  have h : roundHalfEven ((51904/100 : ℚ) * 100) = 51904 := by
    norm_num [roundHalfEven, Int.fract]
  simp only [fmtMoney, h]
  rfl

theorem fmtMoney_insurance_default : fmtMoney (68805/100 : ℚ) = "$688.05" := by
  have h : roundHalfEven ((68805/100 : ℚ) * 100) = 68805 := by
    norm_num [roundHalfEven, Int.fract]
  simp only [fmtMoney, h]
  rfl

/-- C1: the claim fails on the code.  With the default sidebar parameters and
a data-editor edit that zeroes every setup price, the displayed
`estimated_patient` and the Patient Paid cell of the PDF Estimated Totals
table still equal 519.04 — the total computed from the original fee-schedule
prices at source line 140, before the line-170 override — whereas the claim
(and the CRITICAL comment at line 169) require the edited-price total
0 + 171.99 = 171.99. -/
theorem c1_edited_prices_ignored :
    (runScript defaultParams edit0 none "01/01/2026").estimated_patient_displayed =
      51904/100 ∧
    ((edit0 (buildSetupLines fee_schedule)).map (·.price)).sum +
        ((buildSchedule defaultParams fee_schedule).map (·.patient_pays)).sum =
      17199/100 ∧
    (tablesOf (runScript defaultParams edit0 none "01/01/2026").pdf.elements)[2]? =
      some [["Category", "Total"], ["Patient Paid", "$519.04"],
            ["Insurance Paid", "$688.05"]] ∧
    (51904 : ℚ)/100 ≠ 17199/100 := by
  refine ⟨?_, ?_, ?_, by norm_num⟩
  · simp only [runScript]
    rw [setup_sum_eval, patient_sum_default]
    norm_num
  · rw [edit0_sum, patient_sum_default]
    norm_num
  · simp only [runScript]
    rw [setup_sum_eval, patient_sum_default, insurance_sum_default,
      show (34705/100 + 17199/100 : ℚ) = 51904/100 by norm_num]
    simp only [generatePdf, tablesOf, List.nil_append, List.filterMap_cons]
    rw [fmtMoney_patient_default, fmtMoney_insurance_default]
    rfl

/-- C2: for every insurance parameter set, every generated monthly allocation
has `patient_pays + insurance_pays` equal to the allowed monthly amount
(`monthly_total` of the fee schedule, the sum of all monthly charges), up to
the 2-decimal rounding of the two emitted amounts (at most half a cent
each, so at most one cent in total). -/
theorem c2_allocation_sums_to_allowed (p : Params) (row : MonthRow)
    (hrow : row ∈ buildSchedule p fee_schedule) :
    |row.patient_pays + row.insurance_pays - monthly_total fee_schedule| ≤ 1/100 := by
  rw [buildSchedule] at hrow
  obtain ⟨r, hr, rfl⟩ := List.mem_map.mp hrow
  rw [buildScheduleRaw] at hr
  have ha : 0 ≤ monthly_total fee_schedule := by rw [monthly_total_eval]; norm_num
  have hsum : r.pat + r.ins = monthly_total fee_schedule :=
    scheduleAux_add p (monthly_total fee_schedule) ha (monthIndices fee_schedule)
      (initState p) r hr
  dsimp only
  have hsplit : round2 r.pat + round2 r.ins - monthly_total fee_schedule =
      (round2 r.pat - r.pat) + (round2 r.ins - r.ins) := by
    rw [← hsum]; ring
  calc |round2 r.pat + round2 r.ins - monthly_total fee_schedule|
      = |(round2 r.pat - r.pat) + (round2 r.ins - r.ins)| := by rw [hsplit]
    _ ≤ |round2 r.pat - r.pat| + |round2 r.ins - r.ins| := abs_add _ _
    _ ≤ 1/200 + 1/200 := add_le_add (round2_close _) (round2_close _)
    _ ≤ 1/100 := by norm_num

theorem c2_witness :
    ((⟨"February", 1911/100, 7645/100⟩ : MonthRow) ∈
        buildSchedule defaultParams fee_schedule) ∧
    |(⟨"February", 1911/100, 7645/100⟩ : MonthRow).patient_pays +
        (⟨"February", 1911/100, 7645/100⟩ : MonthRow).insurance_pays -
        monthly_total fee_schedule| ≤ 1/100 := by
  have hmem : (⟨"February", 1911/100, 7645/100⟩ : MonthRow) ∈
      buildSchedule defaultParams fee_schedule := by
    rw [buildSchedule_default]
    exact List.mem_cons_self _ _
  exact ⟨hmem, c2_allocation_sums_to_allowed defaultParams _ hmem⟩

/-- C3 (counterexample): the prices of the generated setup-charges table do
NOT sum to 346.49 — the claim's arithmetic is off by 0.56. -/
theorem c3_counterexample :
    ((buildSetupLines fee_schedule).map (·.price)).sum ≠ 34649/100 := by
  rw [setup_sum_eval]
  norm_num

/-- C3 (amended): for the fixed fee schedule, the prices in the generated
setup-charges table sum to 347.05 (one-time items
25.52 + 3.69 + 142.03 + 27.22 + 53.03 = 251.49 plus first-month rentals
73.18 + 22.38 = 95.56). -/
theorem c3_setup_total :
    ((buildSetupLines fee_schedule).map (·.price)).sum = 34705/100 :=
  setup_sum_eval

/-- C4: for effectiveDate 2024-01-01, deductibleTotal = deductibleMet = 350,
oopMax = 4000, oopMet = 912.51, coinsuranceRate = 0.20 and the fixed fee
schedule, the first generated allocation (month index 2) is February with
patient_pays 19.11 and insurance_pays 76.45. -/
theorem c4_first_allocation :
    (buildSchedule defaultParams fee_schedule).head? =
      some ⟨"February", 1911/100, 7645/100⟩ := by
  rw [buildSchedule_default]
  rfl

/-- C5: for every parameter set with non-negative coinsurance rate, the
running `oop_remaining` balance is non-increasing along the entire schedule
run (each successive value in the trace is at most the previous one; it is
never reset upward). -/
theorem c5_oop_monotone (p : Params) (hr : 0 ≤ p.coinsurance_rate) :
    List.Chain' (fun x y : ℚ => y ≤ x) (oop_trace p) := by
  rw [oop_trace, List.chain'_map]
  exact stateTrace_chain p (monthly_total fee_schedule) hr (monthIndices fee_schedule)
    (initState p)

theorem c5_witness :
    List.Chain' (fun x y : ℚ => y ≤ x) (oop_trace defaultParams) :=
  c5_oop_monotone defaultParams (by norm_num [defaultParams])

/-- C6: during schedule construction, (i) whenever the computed calendar
month of an iterated index equals reset_date's month, the value fed into the
deductible phase is the full `deductible_total` (the `applyReset` guard of
source lines 103-104 fires), (ii) on such a month the step result does not
depend on the incoming running deductible at all, and (iii) every window of
12 consecutive month indices contains exactly one index whose calendar month
equals the reset month, so the restoration fires exactly once per 12-month
cycle. -/
theorem c6_deductible_reset (p : Params) (m₀ : ℕ) (he : 1 ≤ p.eff_date.month)
    (hm : 2 ≤ m₀) (h1 : 1 ≤ p.reset_date.month) (h12 : p.reset_date.month ≤ 12) :
    (∀ (m : ℕ) (yd : ℚ), monthIndexOf p m = p.reset_date.month →
        applyReset p m yd = p.deductible_total) ∧
    (∀ (m : ℕ) (st : LoopState), monthIndexOf p m = p.reset_date.month →
        scheduleStep p (monthly_total fee_schedule) st m =
          scheduleStep p (monthly_total fee_schedule)
            ⟨p.deductible_total, st.oop_remaining⟩ m) ∧
    ((Finset.range 12).filter
        fun j => monthIndexOf p (m₀ + j) = p.reset_date.month).card = 1 := by
  refine ⟨?_, ?_, resetWindow_card p m₀ he hm h1 h12⟩
  · intro m yd h
    rw [applyReset, if_pos h]
  · intro m st h
    simp only [scheduleStep, applyReset, if_pos h]

theorem c6_witness :
    ((Finset.range 12).filter
        fun j => monthIndexOf defaultParams (2 + j) = defaultParams.reset_date.month).card
      = 1 ∧
    1 ≤ defaultParams.eff_date.month ∧ 1 ≤ defaultParams.reset_date.month ∧
      defaultParams.reset_date.month ≤ 12 :=
  ⟨(c6_deductible_reset defaultParams 2 (by decide) (by decide) (by decide)
      (by decide)).2.2, by decide, by decide, by decide⟩

/-- C7: for every parameter set, the generated schedule has exactly
`max_months - 1` rows (month indices 2 through max_months in order), and the
i-th row (0-based) carries the name of calendar month
`((eff_date.month + i) % 12) + 1`, with 1 = January. -/
theorem c7_schedule_shape (p : Params) :
    (buildSchedule p fee_schedule).length = max_months fee_schedule - 1 ∧
    (buildSchedule p fee_schedule).map (·.month) =
      (List.range (max_months fee_schedule - 1)).map
        (fun i => month_name ((p.eff_date.month + i) % 12 + 1)) := by
  constructor
  · rw [buildSchedule, List.length_map, buildScheduleRaw, scheduleAux_length,
      monthIndices, List.length_map, List.length_range]
  · rw [buildSchedule_map_month, monthIndices, List.map_map]
    apply List.map_congr_left
    intro i hi
    show month_name (monthIndexOf p (i + 2)) = month_name ((p.eff_date.month + i) % 12 + 1)
    have harg : monthIndexOf p (i + 2) = (p.eff_date.month + i) % 12 + 1 := by
      simp only [monthIndexOf]
      omega
    rw [harg]

/-- C8: only the month component of `reset_date` can influence the output:
two parameter sets that agree on everything except the year and day of
`reset_date` yield the same monthly schedule and the same four totals
(`estimated_patient`, `estimated_insurance`, and the upfront total, which is
also displayed a second time as the grand total and takes no insurance
parameters at all). -/
theorem c8_reset_year_day_noninterference (p₁ p₂ : Params)
    (h1 : p₁.eff_date = p₂.eff_date)
    (h2 : p₁.deductible_total = p₂.deductible_total)
    (h3 : p₁.deductible_met = p₂.deductible_met)
    (h4 : p₁.oop_max = p₂.oop_max)
    (h5 : p₁.oop_met = p₂.oop_met)
    (h6 : p₁.coinsurance_rate = p₂.coinsurance_rate)
    (h7 : p₁.reset_date.month = p₂.reset_date.month) :
    buildSchedule p₁ fee_schedule = buildSchedule p₂ fee_schedule ∧
    estimated_patient p₁ fee_schedule = estimated_patient p₂ fee_schedule ∧
    estimated_insurance p₁ fee_schedule = estimated_insurance p₂ fee_schedule ∧
    total_all_upfront fee_schedule = total_all_upfront fee_schedule := by
  have hb := buildSchedule_eqParams p₁ p₂ fee_schedule (by rw [h1]) h2 h3 h4 h5 h6 h7
  refine ⟨hb, ?_, ?_, rfl⟩
  · rw [estimated_patient, estimated_patient, hb]
  · rw [estimated_insurance, estimated_insurance, hb]

theorem c8_witness :
    (defaultParams.reset_date ≠ altParams.reset_date ∧
      defaultParams.reset_date.month = altParams.reset_date.month) ∧
    buildSchedule defaultParams fee_schedule = buildSchedule altParams fee_schedule ∧
    estimated_patient defaultParams fee_schedule =
      estimated_patient altParams fee_schedule ∧
    estimated_insurance defaultParams fee_schedule =
      estimated_insurance altParams fee_schedule ∧
    total_all_upfront fee_schedule = total_all_upfront fee_schedule :=
  ⟨⟨by decide, rfl⟩,
   c8_reset_year_day_noninterference defaultParams altParams rfl rfl rfl rfl rfl rfl rfl⟩

/-- C9: when the logo asset cannot be read (`logoRead = none`, i.e. `open`
raised), PDF generation still reaches `doc.build` and produces the document
without the image, a visible `st.error` warning is surfaced, and the
generated tables are byte-for-byte the same as in a run where the logo is
present — the only difference in the element list is the missing image. -/
theorem c9_logo_failure_graceful (setup : List SetupLine) (sched : List MonthRow)
    (ep ei tu : ℚ) (today : String) (bs : List ℕ) (hbs : bs ≠ []) :
    (generatePdf none setup sched ep ei tu today).built = true ∧
    (generatePdf none setup sched ep ei tu today).warnings =
      ["Error: FSlogo.png not found for PDF header"] ∧
    (generatePdf (some bs) setup sched ep ei tu today).warnings = [] ∧
    (generatePdf (some bs) setup sched ep ei tu today).elements =
      PdfElem.image bs :: (generatePdf none setup sched ep ei tu today).elements ∧
    tablesOf (generatePdf (some bs) setup sched ep ei tu today).elements =
      tablesOf (generatePdf none setup sched ep ei tu today).elements := by
  cases bs with
  | nil => exact absurd rfl hbs
  | cons b bs' => exact ⟨rfl, rfl, rfl, rfl, rfl⟩

theorem c9_witness :
    (([0] : List ℕ) ≠ []) ∧
    (generatePdf none [] [] 0 0 0 "").built = true ∧
    (generatePdf none [] [] 0 0 0 "").warnings =
      ["Error: FSlogo.png not found for PDF header"] ∧
    (generatePdf (some [0]) [] [] 0 0 0 "").warnings = [] ∧
    (generatePdf (some [0]) [] [] 0 0 0 "").elements =
      PdfElem.image [0] :: (generatePdf none [] [] 0 0 0 "").elements ∧
    tablesOf (generatePdf (some [0]) [] [] 0 0 0 "").elements =
      tablesOf (generatePdf none [] [] 0 0 0 "").elements :=
  ⟨by decide, c9_logo_failure_graceful [] [] 0 0 0 "" [0] (by decide)⟩

/-- C10: under the boundary preconditions (non-negative amounts, coinsurance
rate in [0,1]), every emitted unrounded `pat` and `ins` lies between 0 and
the allowed monthly amount inclusive, and the running balances
`year_ded_remaining` and `oop_remaining` are non-negative at every point of
the schedule run. -/
theorem c10_bounds (p : Params)
    (h1 : 0 ≤ p.deductible_total) (h2 : 0 ≤ p.deductible_met)
    (h3 : 0 ≤ p.oop_max) (h4 : 0 ≤ p.oop_met)
    (h5 : 0 ≤ p.coinsurance_rate) (h6 : p.coinsurance_rate ≤ 1) :
    (∀ r ∈ buildScheduleRaw p fee_schedule,
        0 ≤ r.pat ∧ r.pat ≤ monthly_total fee_schedule ∧
        0 ≤ r.ins ∧ r.ins ≤ monthly_total fee_schedule) ∧
    (∀ s ∈ stateTrace p (monthly_total fee_schedule) (initState p)
        (monthIndices fee_schedule),
        0 ≤ s.year_ded_remaining ∧ 0 ≤ s.oop_remaining) := by
  have ha : 0 ≤ monthly_total fee_schedule := by rw [monthly_total_eval]; norm_num
  have hy : 0 ≤ (initState p).year_ded_remaining := le_max_right _ _
  have ho : 0 ≤ (initState p).oop_remaining := le_max_right _ _
  exact scheduleAux_bounds p (monthly_total fee_schedule) h1 h5 h6 ha
    (monthIndices fee_schedule) (initState p) hy ho

theorem c10_witness :
    ((0:ℚ) ≤ defaultParams.deductible_total ∧ (0:ℚ) ≤ defaultParams.deductible_met ∧
      (0:ℚ) ≤ defaultParams.oop_max ∧ (0:ℚ) ≤ defaultParams.oop_met ∧
      (0:ℚ) ≤ defaultParams.coinsurance_rate ∧ defaultParams.coinsurance_rate ≤ 1) ∧
    (∀ r ∈ buildScheduleRaw defaultParams fee_schedule,
        0 ≤ r.pat ∧ r.pat ≤ monthly_total fee_schedule ∧
        0 ≤ r.ins ∧ r.ins ≤ monthly_total fee_schedule) ∧
    (∀ s ∈ stateTrace defaultParams (monthly_total fee_schedule)
        (initState defaultParams) (monthIndices fee_schedule),
        0 ≤ s.year_ded_remaining ∧ 0 ≤ s.oop_remaining) :=
  ⟨⟨by norm_num [defaultParams], by norm_num [defaultParams],
    by norm_num [defaultParams], by norm_num [defaultParams],
    by norm_num [defaultParams], by norm_num [defaultParams]⟩,
   c10_bounds defaultParams (by norm_num [defaultParams]) (by norm_num [defaultParams])
     (by norm_num [defaultParams]) (by norm_num [defaultParams])
     (by norm_num [defaultParams]) (by norm_num [defaultParams])⟩
